import Mathlib

/-!
Verification of the pico2-swd-riscv driver core (swd.c, internal.h, types.h)
against its natural-language specification.

The C sources are shallowly embedded: machine integers become Nat, the
process-wide `g_resources` tracker becomes an explicit state value threaded
through the functions, heap allocation becomes an explicit success flag, and
NULL pointers become Option.  Functions implemented outside the given sources
(swd_protocol.c / rp2350.c: disconnect, halt, register access, trace) are
modelled from the specification and marked as such in their doc comments.
-/

set_option maxHeartbeats 1000000

namespace SWDModel

/-- Error codes, mirroring swd_error_t in types.h (stable numbering). -/
inductive swd_error where
  | OK
  | TIMEOUT
  | FAULT
  | PROTOCOL
  | PARITY
  | WAIT
  | NOT_CONNECTED
  | NOT_HALTED
  | ALREADY_HALTED
  | INVALID_STATE
  | NO_MEMORY
  | INVALID_CONFIG
  | RESOURCE_BUSY
  | INVALID_PARAM
  | NOT_INITIALIZED
  | ABSTRACT_CMD
  | BUS
  | ALIGNMENT
  | VERIFY
  deriving DecidableEq, Repr

/-- The numeric value of each error code, following the enum order in types.h. -/
def swd_error.code : swd_error → Nat
  | .OK => 0
  | .TIMEOUT => 1
  | .FAULT => 2
  | .PROTOCOL => 3
  | .PARITY => 4
  | .WAIT => 5
  | .NOT_CONNECTED => 6
  | .NOT_HALTED => 7
  | .ALREADY_HALTED => 8
  | .INVALID_STATE => 9
  | .NO_MEMORY => 10
  | .INVALID_CONFIG => 11
  | .RESOURCE_BUSY => 12
  | .INVALID_PARAM => 13
  | .NOT_INITIALIZED => 14
  | .ABSTRACT_CMD => 15
  | .BUS => 16
  | .ALIGNMENT => 17
  | .VERIFY => 18

/-- swd_result_t in types.h: a fallible 32-bit read. -/
structure swd_result where
  error : swd_error
  value : Nat
  deriving DecidableEq, Repr

/-- SWD ACK encodings from types.h. -/
def SWD_ACK_OK : Nat := 0x1

def SWD_ACK_WAIT : Nat := 0x2

def SWD_ACK_FAULT : Nat := 0x4

def SWD_ACK_ERROR : Nat := 0x7

/-- swd_ack_to_error from swd.c lines 91-99: decode a 3-bit ACK field.
The C switch has an explicit SWD_ACK_ERROR arm and a default arm, both
yielding SWD_ERROR_PROTOCOL. -/
def swd_ack_to_error (ack : Nat) : swd_error :=
  if ack = SWD_ACK_OK then .OK
  else if ack = SWD_ACK_WAIT then .WAIT
  else if ack = SWD_ACK_FAULT then .FAULT
  else if ack = SWD_ACK_ERROR then .PROTOCOL
  else .PROTOCOL

/-- Auto-selection sentinels from types.h. -/
def SWD_PIO_AUTO : Nat := 0xFF

def SWD_SM_AUTO : Nat := 0xFF

/-- dap_state_t from internal.h. -/
structure dap_state where
  current_apsel : Nat
  current_bank : Nat
  ctrlsel : Bool
  select_cache : Nat
  powered : Bool
  retry_count : Nat
  deriving DecidableEq, Repr

/-- hart_state_t from internal.h. -/
structure hart_state where
  halt_state_known : Bool
  halted : Bool
  cache_valid : Bool
  cached_pc : Nat
  cached_gprs : List Nat
  cache_timestamp : Nat
  deriving DecidableEq, Repr

def RP2350_NUM_HARTS : Nat := 2

/-- rp2350_state_t from internal.h; the 2-element hart array becomes a list. -/
structure rp2350_state where
  initialized : Bool
  sba_initialized : Bool
  harts : List hart_state
  cache_enabled : Bool
  deriving DecidableEq, Repr

/-- pio_state_t from internal.h.  The PIO block pointer (pio0/pio1) is
embedded as a Nat: 0 for pio0, 1 for pio1 (other values stand for an
invalid block pointer). -/
structure pio_state where
  pio : Nat
  sm : Nat
  pio_offset : Nat
  pin_swclk : Nat
  pin_swdio : Nat
  freq_khz : Nat
  initialized : Bool
  deriving DecidableEq, Repr

/-- struct swd_target from internal.h.  error_detail carries the detail
string; last_ack the last ACK bits. -/
structure swd_target where
  pio : pio_state
  connected : Bool
  idcode : Nat
  dap : dap_state
  rp2350 : rp2350_state
  last_error : swd_error
  last_ack : Nat
  error_detail : String
  resource_registered : Bool
  deriving DecidableEq, Repr

/-- swd_config_t from swd.h.  The PIO field is a Nat: 0, 1, or SWD_PIO_AUTO. -/
structure swd_config where
  pio : Nat
  sm : Nat
  pin_swclk : Nat
  pin_swdio : Nat
  freq_khz : Nat
  enable_caching : Bool
  retry_count : Nat
  deriving DecidableEq, Repr

/-- resource_tracker_t from internal.h.  Owner pointers become Option-valued
session identifiers; each owners array is a length-4 list. -/
structure resource_tracker where
  pio0_sm_owners : List (Option Nat)
  pio1_sm_owners : List (Option Nat)
  active_count : Nat
  deriving DecidableEq, Repr

/-- The zero-initialised g_resources from swd.c lines 24-28. -/
def init_resources : resource_tracker :=
  { pio0_sm_owners := [none, none, none, none]
  , pio1_sm_owners := [none, none, none, none]
  , active_count := 0 }

/-- The owner recorded for a (pio block, state machine) slot, or none. -/
def slotOwner (r : resource_tracker) (pio sm : Nat) : Option Nat :=
  if pio = 0 then r.pio0_sm_owners.getD sm none
  else if pio = 1 then r.pio1_sm_owners.getD sm none
  else none

/-- allocate_pio_sm from swd.c lines 105-125: scan PIO0 state machines 0-3
for an unowned one, then PIO1; the tracker is only read, never written. -/
def allocate_pio_sm (r : resource_tracker) : Except swd_error (Nat × Nat) :=
  match r.pio0_sm_owners.findIdx? (fun o => o.isNone) with
  | some i => .ok (0, i)
  | none =>
    match r.pio1_sm_owners.findIdx? (fun o => o.isNone) with
    | some i => .ok (1, i)
    | none => .error .RESOURCE_BUSY

/-- The guarded active_count decrement at the end of release_pio_sm
(swd.c lines 136-138). -/
def release_decrement (r1 : resource_tracker) : resource_tracker :=
  if 0 < r1.active_count then { r1 with active_count := r1.active_count - 1 }
  else r1

/-- release_pio_sm from swd.c lines 127-139. -/
def release_pio_sm (r : resource_tracker) (pio sm : Nat) : resource_tracker :=
  if 4 ≤ sm then r
  else
    release_decrement
      (if pio = 0 then
        { r with pio0_sm_owners := r.pio0_sm_owners.set sm none }
      else if pio = 1 then
        { r with pio1_sm_owners := r.pio1_sm_owners.set sm none }
      else r)

/-- register_target from swd.c lines 141-161: claim a slot for a session,
failing when the state machine index is out of range, the block pointer is
neither pio0 nor pio1, or the slot is already owned. -/
def register_target (r : resource_tracker) (id : Nat) (pio sm : Nat) :
    Option resource_tracker :=
  if 4 ≤ sm then none
  else if pio = 0 then
    match r.pio0_sm_owners.getD sm none with
    | some _ => none
    | none =>
      some { r with pio0_sm_owners := r.pio0_sm_owners.set sm (some id)
                  , active_count := r.active_count + 1 }
  else if pio = 1 then
    match r.pio1_sm_owners.getD sm none with
    | some _ => none
    | none =>
      some { r with pio1_sm_owners := r.pio1_sm_owners.set sm (some id)
                  , active_count := r.active_count + 1 }
  else none

/-- unregister_target from swd.c lines 163-168, acting on the tracker and
the target record. -/
def unregister_target (r : resource_tracker) (t : swd_target) :
    resource_tracker × swd_target :=
  if t.resource_registered then
    (release_pio_sm r t.pio.pio t.pio.sm, { t with resource_registered := false })
  else (r, t)

/-- swd_set_error from swd.c lines 67-84 (the formatted varargs detail is
embedded as a plain string). -/
def swd_set_error (t : swd_target) (e : swd_error) (detail : String) : swd_target :=
  { t with last_error := e, error_detail := detail }

/-- A hart record with every field zeroed, as calloc and the per-hart reset
loop of swd_target_create leave it. -/
def init_hart : hart_state :=
  { halt_state_known := false, halted := false, cache_valid := false
  , cached_pc := 0, cached_gprs := List.replicate 32 0, cache_timestamp := 0 }

/-- A calloc-zeroed struct swd_target (swd.c line 210). -/
def zeroTarget : swd_target :=
  { pio := { pio := 0, sm := 0, pio_offset := 0, pin_swclk := 0, pin_swdio := 0
           , freq_khz := 0, initialized := false }
  , connected := false
  , idcode := 0
  , dap := { current_apsel := 0, current_bank := 0, ctrlsel := false
           , select_cache := 0, powered := false, retry_count := 0 }
  , rp2350 := { initialized := false, sba_initialized := false
              , harts := List.replicate RP2350_NUM_HARTS init_hart
              , cache_enabled := false }
  , last_error := .OK
  , last_ack := 0
  , error_detail := ""
  , resource_registered := false }

/-- The fully initialised target record swd_target_create builds over the
calloc-zeroed struct (swd.c lines 216-270) once the slot (pio, sm) is
secured: defaults, pin/frequency copy, slot fields, DAP state with the
invalid SELECT cache, RP2350 state, and both harts reset. -/
def made_target (cfg : swd_config) (pio sm : Nat) : swd_target :=
  { zeroTarget with
    last_error := .OK
  , connected := false
  , resource_registered := true
  , pio := { zeroTarget.pio with
             pio := pio, sm := sm
           , pin_swclk := cfg.pin_swclk, pin_swdio := cfg.pin_swdio
           , freq_khz := cfg.freq_khz, initialized := false }
  , dap := { zeroTarget.dap with
             powered := false, retry_count := cfg.retry_count
           , current_apsel := 0xFF, current_bank := 0xFF }
  , rp2350 := { zeroTarget.rp2350 with
                cache_enabled := cfg.enable_caching
              , initialized := false, sba_initialized := false
              , harts := List.replicate RP2350_NUM_HARTS init_hart } }

/-- The outcome of swd_target_create: a NULL pointer or a fresh handle. -/
inductive create_result where
  | null
  | ok (t : swd_target)
  deriving DecidableEq, Repr

/-- swd_target_create from swd.c lines 203-277.  The global tracker is
threaded explicitly; `id` is the fresh session identity standing for the
allocated pointer; `calloc_ok` models whether calloc succeeds.  On every
failure path the C code frees the partially built target and returns NULL
without touching the tracker. -/
def swd_target_create (r : resource_tracker) (id : Nat)
    (config : Option swd_config) (calloc_ok : Bool) :
    create_result × resource_tracker :=
  match config with
  | none => (.null, r)
  | some config =>
    if calloc_ok = false then (.null, r)
    else
      match (if config.pio = SWD_PIO_AUTO ∨ config.sm = SWD_SM_AUTO then
          allocate_pio_sm r
        else .ok (config.pio, config.sm) :
          Except swd_error (Nat × Nat)) with
      | .error _ => (.null, r)
      | .ok (pio, sm) =>
        match register_target r id pio sm with
        | none => (.null, r)
        | some r2 => (.ok (made_target config pio sm), r2)

/-- Modelled from the spec: swd_disconnect is implemented in swd_protocol.c,
which is not among the given sources.  Per spec section 4.2 it powers down the
debug domains and releases the pins; it does not touch the resource tracker. -/
def swd_disconnect (t : swd_target) : swd_target :=
  { t with connected := false
         , dap := { t.dap with powered := false }
         , pio := { t.pio with initialized := false } }

/-- The body of swd_target_destroy on a live handle (swd.c lines 283-288):
disconnect when connected, then unregister; returns the tracker after both. -/
def destroy_live (r : resource_tracker) (t : swd_target) : resource_tracker :=
  (unregister_target r (if t.connected then swd_disconnect t else t)).1

/-- swd_is_connected from swd.c lines 300-302. -/
def swd_is_connected (target : Option swd_target) : Bool :=
  match target with
  | none => false
  | some t => t.connected

/-- swd_read_idcode from swd.c lines 304-319.  Returns the result pair and
the (possibly error-annotated) target. -/
def swd_read_idcode (target : Option swd_target) :
    swd_result × Option swd_target :=
  match target with
  | none => ({ error := .NOT_CONNECTED, value := 0 }, none)
  | some t =>
    if t.connected = false then
      ({ error := .NOT_CONNECTED, value := 0 }
      , some (swd_set_error t .NOT_CONNECTED "Not connected"))
    else
      ({ error := .OK, value := t.idcode }, some t)

/-- swd_get_frequency from swd.c lines 344-346. -/
def swd_get_frequency (target : Option swd_target) : Nat :=
  match target with
  | none => 0
  | some t => t.pio.freq_khz

/-- A C pointer: NULL or an address. -/
inductive cptr where
  | null
  | addr (a : Nat)
  deriving DecidableEq, Repr

/-- The allocation heap: live targets by address.  An address absent from the
heap is freed (or never allocated); dereferencing it is undefined behaviour. -/
abbrev Heap := List (Nat × swd_target)

def heap_lookup (h : Heap) (a : Nat) : Option swd_target :=
  match h.find? (fun p => p.1 == a) with
  | some p => some p.2
  | none => none

def heap_free (h : Heap) (a : Nat) : Heap :=
  h.filter (fun p => p.1 != a)

/-- swd_target_destroy from swd.c lines 279-294, at the memory level: NULL is
an immediate no-op; a live pointer is disconnected when connected, then
unregistered from the tracker, then freed.  Dereferencing an address no longer
in the heap (an already-destroyed handle) is undefined behaviour, modelled as
none (a fault). -/
def swd_target_destroy (h : Heap) (r : resource_tracker) (p : cptr) :
    Option (Heap × resource_tracker) :=
  match p with
  | .null => some (h, r)
  | .addr a =>
    match heap_lookup h a with
    | none => none
    | some t => some (heap_free h a, destroy_live r t)

/-- Number of owned slots across both PIO blocks. -/
def ownedCount (r : resource_tracker) : Nat :=
  r.pio0_sm_owners.countP (fun o => o.isSome)
    + r.pio1_sm_owners.countP (fun o => o.isSome)

/-- The whole-process state for the lifecycle model: the global tracker plus
the live sessions (session identity paired with the target record) and a
fresh-identity counter standing for the allocator never reusing a live
address. -/
structure SysState where
  tracker : resource_tracker
  sessions : List (Nat × swd_target)
  next_id : Nat
  deriving DecidableEq, Repr

/-- The zero-initialised process state. -/
def initSys : SysState :=
  { tracker := init_resources, sessions := [], next_id := 0 }

/-- One swd_target_create call at the process level. -/
def applyCreate (s : SysState) (config : Option swd_config) (calloc_ok : Bool) :
    SysState :=
  match swd_target_create s.tracker s.next_id config calloc_ok with
  | (.ok t, r2) =>
    { tracker := r2
    , sessions := (s.next_id, t) :: s.sessions
    , next_id := s.next_id + 1 }
  | (.null, r2) => { s with tracker := r2 }

/-- One swd_target_destroy call at the process level (on a live session;
destroying an unknown identity is a no-op here, since in C that would be the
undefined double-free covered by the heap-level model). -/
def applyDestroy (s : SysState) (id : Nat) : SysState :=
  match s.sessions.find? (fun p => p.1 == id) with
  | none => s
  | some p =>
    { tracker := destroy_live s.tracker p.2
    , sessions := s.sessions.filter (fun q => q.1 != id)
    , next_id := s.next_id }

/-- One lifecycle API call. -/
inductive SysStep : SysState → SysState → Prop where
  | create (config : Option swd_config) (calloc_ok : Bool) {s : SysState} :
      SysStep s (applyCreate s config calloc_ok)
  | destroy (id : Nat) {s : SysState} :
      SysStep s (applyDestroy s id)

/-- States reachable from the zero-initialised state by create/destroy calls. -/
inductive SysReachable : SysState → Prop where
  | init : SysReachable initSys
  | step {s s2 : SysState} : SysReachable s → SysStep s s2 → SysReachable s2

/-- Per-session consistency used by the tracker invariant. -/
def SessionOK (s : SysState) (p : Nat × swd_target) : Prop :=
  p.2.resource_registered = true ∧ p.2.pio.pio < 2 ∧ p.2.pio.sm < 4 ∧
  slotOwner s.tracker p.2.pio.pio p.2.pio.sm = some p.1 ∧ p.1 < s.next_id

/-- The resource-tracker invariant. -/
def Inv (s : SysState) : Prop :=
  s.tracker.pio0_sm_owners.length = 4 ∧
  s.tracker.pio1_sm_owners.length = 4 ∧
  s.tracker.active_count = ownedCount s.tracker ∧
  (∀ p ∈ s.sessions, SessionOK s p) ∧
  (∀ pio sm id, slotOwner s.tracker pio sm = some id →
      ∃ t, (id, t) ∈ s.sessions ∧ t.pio.pio = pio ∧ t.pio.sm = sm) ∧
  (s.sessions.map Prod.fst).Nodup

/-- The per-hart record of a target (C: target->rp2350.harts[h]). -/
def hartOf (t : swd_target) (h : Nat) : hart_state :=
  t.rp2350.harts.getD h init_hart

/-- Update one hart record of a target. -/
def setHart (t : swd_target) (h : Nat) (hs : hart_state) : swd_target :=
  { t with rp2350 := { t.rp2350 with harts := t.rp2350.harts.set h hs } }

/-- Modelled from the spec: rp2350_halt is implemented in rp2350.c, which is
not among the given sources (only callers appear, in examples/).  Per spec
section 4.4.2: select hart h; if it is already halted return ALREADY_HALTED
(a non-fatal marker, the status read reasserting halt_state_known); otherwise
request halt, poll DMSTATUS until halted, and record halted together with
halt_state_known. -/
def rp2350_halt (t : swd_target) (h : Nat) : swd_error × swd_target :=
  if t.connected = false then (.NOT_CONNECTED, t)
  else if t.rp2350.initialized = false then (.NOT_INITIALIZED, t)
  else if RP2350_NUM_HARTS ≤ h then (.INVALID_PARAM, t)
  else if (hartOf t h).halted then
    (.ALREADY_HALTED, setHart t h { hartOf t h with halt_state_known := true })
  else
    (.OK, setHart t h { hartOf t h with halted := true, halt_state_known := true })

/-- One abstract command issued on the DMI — the bus transaction unit of the
register-access driver. -/
structure abstract_cmd where
  write : Bool
  regno : Nat
  value : Nat
  deriving DecidableEq, Repr

/-- Modelled from the spec: rp2350_write_reg is implemented in rp2350.c, not
among the given sources.  Per spec section 4.4.7, x0 is hard-wired zero —
writes silently succeed without a bus transaction; other GPRs are written via
one abstract command.  hw is the selected hart register file (indexed by
regno); the returned list is the bus transactions issued. -/
def rp2350_write_reg (t : swd_target) (hw : List Nat) (h : Nat)
    (regno : Nat) (value : Nat) : swd_error × List Nat × List abstract_cmd :=
  if t.connected = false then (.NOT_CONNECTED, hw, [])
  else if RP2350_NUM_HARTS ≤ h then (.INVALID_PARAM, hw, [])
  else if (hartOf t h).halted = false then (.NOT_HALTED, hw, [])
  else if 32 ≤ regno then (.INVALID_PARAM, hw, [])
  else if regno = 0 then (.OK, hw, [])
  else (.OK, hw.set regno value, [{ write := true, regno := regno, value := value }])

/-- Modelled from the spec: rp2350_read_reg is implemented in rp2350.c, not
among the given sources.  Per spec section 4.4.7, reading x0 returns 0 without
a bus transaction; other GPRs are read via one abstract command. -/
def rp2350_read_reg (t : swd_target) (hw : List Nat) (h : Nat) (regno : Nat) :
    swd_result × List abstract_cmd :=
  if t.connected = false then ({ error := .NOT_CONNECTED, value := 0 }, [])
  else if RP2350_NUM_HARTS ≤ h then ({ error := .INVALID_PARAM, value := 0 }, [])
  else if (hartOf t h).halted = false then ({ error := .NOT_HALTED, value := 0 }, [])
  else if 32 ≤ regno then ({ error := .INVALID_PARAM, value := 0 }, [])
  else if regno = 0 then ({ error := .OK, value := 0 }, [])
  else ({ error := .OK, value := hw.getD regno 0 }
       , [{ write := false, regno := regno, value := 0 }])

/-- A trace record (spec section 3): regs present only on request. -/
structure trace_record where
  pc : Nat
  instruction : Nat
  regs : Option (List Nat)
  deriving DecidableEq, Repr

/-- The observable machine under trace: PC, word-addressed memory, GPRs. -/
structure debug_machine where
  pc : Nat
  mem : List (Nat × Nat)
  gprs : List Nat
  deriving DecidableEq, Repr

/-- Modelled from the spec: SBA 32-bit read (spec section 4.4.5) — a
misaligned address raises ALIGNMENT before any transfer; an unmapped address
surfaces sberror as a bus error. -/
def sba_read32 (m : debug_machine) (addr : Nat) : Except swd_error Nat :=
  if addr % 4 ≠ 0 then .error .ALIGNMENT
  else
    match m.mem.lookup addr with
    | some v => .ok v
    | none => .error .BUS

/-- Modelled from the spec: the GPR snapshot captured into a trace record —
x0 read as 0 (spec section 4.5). -/
def snapshot_gprs (m : debug_machine) : List Nat :=
  (List.range 32).map (fun i => if i = 0 then 0 else m.gprs.getD i 0)

/-- Modelled from the spec: one single-step retires one instruction; the
embedding keeps only the PC, advanced by one 32-bit instruction. -/
def machine_step (m : debug_machine) : debug_machine :=
  { m with pc := m.pc + 4 }

/-- Negative return codes used by trace on transport errors (spec 4.5). -/
def error_code (e : swd_error) : Int := -(Int.ofNat e.code)

/-- Modelled from the spec: the record assembled by one trace iteration
(spec section 4.5) — current PC, fetched instruction, GPRs on request. -/
def loop_record (capture : Bool) (m : debug_machine) (instr : Nat) :
    trace_record :=
  { pc := m.pc, instruction := instr
  , regs := if capture then some (snapshot_gprs m) else none }

/-- Modelled from the spec: the trace loop body (spec section 4.5).  For each
iteration: read PC, read the instruction at PC via SBA (a transport error
aborts with a negative code), build the record (with GPRs when capture is
requested), invoke the callback, stop when it returns false, otherwise
single-step.  Returns the result (count delivered or negative error code)
paired with the number of callback invocations made. -/
def trace_loop (cb : trace_record → Bool) (capture : Bool) :
    debug_machine → Nat → Nat → Int × Nat
  | _, 0, count => (Int.ofNat count, 0)
  | m, remaining + 1, count =>
    match sba_read32 m m.pc with
    | .error e => (error_code e, 0)
    | .ok instr =>
      if cb (loop_record capture m instr) then
        let rest := trace_loop cb capture (machine_step m) remaining (count + 1)
        (rest.1, rest.2 + 1)
      else (Int.ofNat (count + 1), 1)

/-- Modelled from the spec: rp2350_trace is implemented in rp2350.c, not among
the given sources.  Precondition checks, then the loop above. -/
def rp2350_trace (t : swd_target) (m : debug_machine) (h : Nat) (max : Nat)
    (cb : trace_record → Bool) (capture : Bool) : Int × Nat :=
  if t.connected = false then (error_code .NOT_CONNECTED, 0)
  else if RP2350_NUM_HARTS ≤ h then (error_code .INVALID_PARAM, 0)
  else if (hartOf t h).halted = false then (error_code .NOT_HALTED, 0)
  else trace_loop cb capture m max 0

/-- The machine state after i single-steps. -/
def runState (m : debug_machine) : Nat → debug_machine
  | 0 => m
  | i + 1 => machine_step (runState m i)

/-- The instruction fetch trace would perform at iteration i. -/
def instrAt (m : debug_machine) (i : Nat) : Except swd_error Nat :=
  sba_read32 (runState m i) (runState m i).pc

/-- The record trace would deliver at iteration i (when the fetch succeeds). -/
def recordAt (capture : Bool) (m : debug_machine) (i : Nat) : trace_record :=
  { pc := (runState m i).pc
  , instruction := match instrAt m i with | .ok v => v | .error _ => 0
  , regs := if capture then some (snapshot_gprs (runState m i)) else none }

/-- A concrete configuration whose pins coincide and whose frequency is far
outside the 100-2000 kHz range documented for the driver. -/
def demo_config_equal_pins : swd_config :=
  { pio := SWD_PIO_AUTO, sm := SWD_SM_AUTO, pin_swclk := 5, pin_swdio := 5
  , freq_khz := 1000000, enable_caching := true, retry_count := 5 }

/-- A concrete connected and DM-initialised target. -/
def demo_connected_target : swd_target :=
  { zeroTarget with
    connected := true
  , idcode := 0x12345678
  , rp2350 := { zeroTarget.rp2350 with initialized := true } }

/-- The same target with hart 0 halted. -/
def demo_halted_target : swd_target :=
  setHart demo_connected_target 0
    { init_hart with halted := true, halt_state_known := true }

/-- A one-element heap holding a fresh (disconnected, unregistered) target at
address 7. -/
def demo_heap : Heap := [(7, zeroTarget)]

/-- A concrete machine for trace witnesses: three mapped words at 0x100. -/
def demo_machine : debug_machine :=
  { pc := 0x100
  , mem := [(0x100, 0x00000013), (0x104, 0x00100093), (0x108, 0x0000006F)]
  , gprs := List.replicate 32 0 }

/-- A part-filled tracker: PIO0 state machines 0 and 2 owned. -/
def demo_tracker : resource_tracker :=
  { pio0_sm_owners := [some 9, none, some 3, none]
  , pio1_sm_owners := [none, none, none, none]
  , active_count := 2 }

/-! ## Helper lemmas -/

theorem getD_set_self {α : Type} {l : List α} {i : Nat} (x d : α)
    (h : i < l.length) : (l.set i x).getD i d = x := by
  simp [List.getD_eq_getElem?_getD, List.getElem?_set_self h]

theorem getD_set_ne {α : Type} {l : List α} {i j : Nat} (x d : α)
    (h : i ≠ j) : (l.set i x).getD j d = l.getD j d := by
  simp [List.getD_eq_getElem?_getD, List.getElem?_set_ne h]

theorem getD_eq_getElem {α : Type} (l : List α) (d : α) (j : Nat)
    (hj : j < l.length) : l.getD j d = l[j] := by
  simp [List.getD_eq_getElem?_getD, List.getElem?_eq_getElem hj]

theorem countP_set_balance (p : Option Nat → Bool) :
    ∀ (l : List (Option Nat)) (i : Nat) (x : Option Nat), i < l.length →
      (l.set i x).countP p + (if p (l.getD i none) then 1 else 0)
        = l.countP p + (if p x then 1 else 0)
  | [], i, x, h => by simp at h
  | a :: tl, 0, x, _ => by
      simp [List.countP_cons]
      omega
  | a :: tl, i + 1, x, h => by
      have ih := countP_set_balance p tl i x (by simpa using h)
      simp only [List.set_cons_succ, List.countP_cons, List.getD_cons_succ]
      omega

theorem key_unique {l : List (Nat × swd_target)}
    (hnd : (l.map Prod.fst).Nodup) {id : Nat} {t1 t2 : swd_target}
    (h1 : (id, t1) ∈ l) (h2 : (id, t2) ∈ l) : t1 = t2 := by
  induction l with
  | nil => cases h1
  | cons a tl ih =>
    rcases List.nodup_cons.mp hnd with ⟨hna, hnd2⟩
    rcases List.mem_cons.mp h1 with h1 | h1 <;>
      rcases List.mem_cons.mp h2 with h2 | h2
    · rw [← h1] at h2; exact (Prod.mk.injEq _ _ _ _ ▸ h2).2.symm
    · exact absurd (List.mem_map.mpr ⟨(id, t2), h2, by rw [← h1]⟩) hna
    · exact absurd (List.mem_map.mpr ⟨(id, t1), h1, by rw [← h2]⟩) hna
    · exact ih hnd2 h1 h2

/-! ## Claim C5 -/

/-- Claim C5: swd_ack_to_error is total and matches the SWD encoding —
001b maps to OK, 010b to WAIT, 100b to FAULT, and every other ack bit
pattern to the protocol error. -/
theorem C5_ack_decoding_total :
    swd_ack_to_error 1 = .OK ∧ swd_ack_to_error 2 = .WAIT ∧
    swd_ack_to_error 4 = .FAULT ∧
    ∀ a : Nat, a ≠ 1 → a ≠ 2 → a ≠ 4 → swd_ack_to_error a = .PROTOCOL := by
  refine ⟨rfl, rfl, rfl, ?_⟩
  intro a h1 h2 h4
  simp only [swd_ack_to_error, SWD_ACK_OK, SWD_ACK_WAIT, SWD_ACK_FAULT,
    SWD_ACK_ERROR, h1, h2, h4, if_false]
  split <;> rfl

/-- Witness for C5 at the concrete patterns 0, 3, 5, 6, 7. -/
theorem C5_ack_decoding_total_witness :
    swd_ack_to_error 0 = .PROTOCOL ∧ swd_ack_to_error 3 = .PROTOCOL ∧
    swd_ack_to_error 5 = .PROTOCOL ∧ swd_ack_to_error 6 = .PROTOCOL ∧
    swd_ack_to_error 7 = .PROTOCOL :=
  ⟨C5_ack_decoding_total.2.2.2 0 (by decide) (by decide) (by decide)
  , C5_ack_decoding_total.2.2.2 3 (by decide) (by decide) (by decide)
  , C5_ack_decoding_total.2.2.2 5 (by decide) (by decide) (by decide)
  , C5_ack_decoding_total.2.2.2 6 (by decide) (by decide) (by decide)
  , C5_ack_decoding_total.2.2.2 7 (by decide) (by decide) (by decide)⟩

/-! ## Claim C4 -/

/-- Claim C4: swd_read_idcode returns NOT_CONNECTED whenever the handle is
null or the session is not connected, OK with the stored IDCODE whenever it
is connected, and on the error path the value field carries the dummy 0. -/
theorem C4_read_idcode_result (target : Option swd_target) :
    ((target = none ∨ ∃ t, target = some t ∧ t.connected = false) →
      (swd_read_idcode target).1.error = .NOT_CONNECTED ∧
      (swd_read_idcode target).1.value = 0) ∧
    (∀ t, target = some t → t.connected = true →
      (swd_read_idcode target).1.error = .OK ∧
      (swd_read_idcode target).1.value = t.idcode) := by
  constructor
  · rintro (rfl | ⟨t, rfl, hc⟩)
    · exact ⟨rfl, rfl⟩
    · simp [swd_read_idcode, hc]
  · rintro t rfl hc
    simp [swd_read_idcode, hc]

/-- Witness for C4 on a connected target and on a null handle. -/
theorem C4_read_idcode_result_witness :
    ((swd_read_idcode (some demo_connected_target)).1.error = .OK ∧
      (swd_read_idcode (some demo_connected_target)).1.value = 0x12345678) ∧
    (swd_read_idcode none).1.error = .NOT_CONNECTED :=
  ⟨(C4_read_idcode_result (some demo_connected_target)).2
      demo_connected_target rfl rfl
  , ((C4_read_idcode_result none).1 (Or.inl rfl)).1⟩

/-! ## swd_target_create inversion -/

/-- Unfolding swd_target_create once the slot computation is known. -/
theorem create_eq_slot_ok (r : resource_tracker) (id : Nat) (cfg : swd_config)
    (pio sm : Nat)
    (hslot : (if cfg.pio = SWD_PIO_AUTO ∨ cfg.sm = SWD_SM_AUTO then
        allocate_pio_sm r else Except.ok (cfg.pio, cfg.sm)) = .ok (pio, sm)) :
    swd_target_create r id (some cfg) true =
      match register_target r id pio sm with
      | none => (.null, r)
      | some r2 => (.ok (made_target cfg pio sm), r2) := by
  unfold swd_target_create
  simp only [hslot]
  rfl

/-- Unfolding swd_target_create when no slot is available. -/
theorem create_eq_slot_err (r : resource_tracker) (id : Nat) (cfg : swd_config)
    (e : swd_error)
    (hslot : (if cfg.pio = SWD_PIO_AUTO ∨ cfg.sm = SWD_SM_AUTO then
        allocate_pio_sm r else Except.ok (cfg.pio, cfg.sm)) = .error e) :
    swd_target_create r id (some cfg) true = (.null, r) := by
  unfold swd_target_create
  simp only [hslot]
  rfl

/-- Everything a successful swd_target_create guarantees about its output. -/
theorem create_ok_inversion {r : resource_tracker} {id : Nat}
    {config : Option swd_config} {ok : Bool} {t : swd_target}
    {r2 : resource_tracker}
    (h : swd_target_create r id config ok = (.ok t, r2)) :
    ∃ cfg pio sm, config = some cfg ∧
      register_target r id pio sm = some r2 ∧
      t.resource_registered = true ∧ t.pio.pio = pio ∧ t.pio.sm = sm ∧
      t.pio.pin_swclk = cfg.pin_swclk ∧ t.pio.pin_swdio = cfg.pin_swdio ∧
      t.pio.freq_khz = cfg.freq_khz ∧
      t.connected = false ∧ t.dap.current_apsel = 0xFF ∧
      t.dap.current_bank = 0xFF ∧ t.dap.powered = false ∧
      t.last_error = .OK ∧
      t.rp2350.harts = List.replicate RP2350_NUM_HARTS init_hart := by
  cases config with
  | none => simp [swd_target_create] at h
  | some cfg =>
    cases ok with
    | false => simp [swd_target_create] at h
    | true =>
      cases hslot : (if cfg.pio = SWD_PIO_AUTO ∨ cfg.sm = SWD_SM_AUTO
          then allocate_pio_sm r else Except.ok (cfg.pio, cfg.sm)) with
      | error e =>
        rw [create_eq_slot_err r id cfg e hslot] at h
        have hc : create_result.null = create_result.ok t :=
          congrArg Prod.fst h
        cases hc
      | ok pr =>
        obtain ⟨pio, sm⟩ := pr
        rw [create_eq_slot_ok r id cfg pio sm hslot] at h
        cases hreg : register_target r id pio sm with
        | none =>
          rw [hreg] at h
          have hc : create_result.null = create_result.ok t :=
            congrArg Prod.fst h
          cases hc
        | some r3 =>
          rw [hreg] at h
          have h2 : (create_result.ok (made_target cfg pio sm), r3)
              = (create_result.ok t, r2) := h
          injection h2 with ha hb
          injection ha with ha
          subst hb
          subst ha
          exact ⟨cfg, pio, sm, rfl, hreg, rfl, rfl, rfl, rfl, rfl, rfl, rfl,
            rfl, rfl, rfl, rfl, rfl⟩

/-- A null result from swd_target_create leaves the tracker untouched. -/
theorem create_null_tracker (r : resource_tracker) (id : Nat)
    (config : Option swd_config) (ok : Bool) :
    (swd_target_create r id config ok).1 = .null →
    (swd_target_create r id config ok).2 = r := by
  cases config with
  | none => intro _; rfl
  | some cfg =>
    cases ok with
    | false => intro _; rfl
    | true =>
      cases hslot : (if cfg.pio = SWD_PIO_AUTO ∨ cfg.sm = SWD_SM_AUTO
          then allocate_pio_sm r else Except.ok (cfg.pio, cfg.sm)) with
      | error e =>
        rw [create_eq_slot_err r id cfg e hslot]
        intro _; rfl
      | ok pr =>
        obtain ⟨pio, sm⟩ := pr
        rw [create_eq_slot_ok r id cfg pio sm hslot]
        cases hreg : register_target r id pio sm with
        | none => intro _; rfl
        | some r3 =>
          intro hcontra
          exact absurd hcontra (by intro hc; cases hc)

/-- On every failure path swd_target_create leaves the tracker untouched and
returns null; otherwise it succeeds through exactly one register_target. -/
theorem create_cases (r : resource_tracker) (id : Nat)
    (config : Option swd_config) (ok : Bool) :
    swd_target_create r id config ok = (.null, r) ∨
    ∃ t pio sm r2, swd_target_create r id config ok = (.ok t, r2) ∧
      register_target r id pio sm = some r2 ∧
      t.resource_registered = true ∧ t.pio.pio = pio ∧ t.pio.sm = sm := by
  match hres : swd_target_create r id config ok with
  | (.null, r2) =>
    left
    have h1 : (swd_target_create r id config ok).1 = .null := by rw [hres]
    have h2 := create_null_tracker r id config ok h1
    rw [hres] at h2
    have h3 : r2 = r := h2
    rw [h3]
  | (.ok t, r2) =>
    right
    rcases create_ok_inversion hres with
      ⟨cfg, pio, sm, _, hreg, hrr, hp, hs, _⟩
    exact ⟨t, pio, sm, r2, rfl, hreg, hrr, hp, hs⟩

/-! ## Claim C3 -/

/-- Claim C3: a successful swd_target_create returns a disconnected session:
connected is false, the SELECT cache holds the invalid apsel/bank 0xFF,
powered is false, and both harts have halted, halt_state_known and
cache_valid false. -/
theorem C3_create_disconnected_state (r : resource_tracker) (id : Nat)
    (config : Option swd_config) (ok : Bool) (t : swd_target)
    (r2 : resource_tracker)
    (h : swd_target_create r id config ok = (.ok t, r2)) :
    t.connected = false ∧ t.dap.current_apsel = 0xFF ∧
    t.dap.current_bank = 0xFF ∧ t.dap.powered = false ∧
    t.rp2350.harts.length = RP2350_NUM_HARTS ∧
    ∀ hs ∈ t.rp2350.harts,
      hs.halted = false ∧ hs.halt_state_known = false ∧
      hs.cache_valid = false := by
  rcases create_ok_inversion h with
    ⟨cfg, pio, sm, _, _, _, _, _, _, _, _, hconn, hap, hbk, hpw, _, hharts⟩
  refine ⟨hconn, hap, hbk, hpw, by rw [hharts]; simp, ?_⟩
  intro hs hmem
  rw [hharts] at hmem
  have := List.eq_of_mem_replicate hmem
  subst this
  exact ⟨rfl, rfl, rfl⟩

/-- Witness for C3: a concrete successful creation. -/
theorem C3_create_disconnected_state_witness :
    ∃ t r2, swd_target_create init_resources 0 (some demo_config_equal_pins)
        true = (.ok t, r2) ∧
      t.connected = false ∧ t.dap.current_apsel = 0xFF ∧
      t.dap.current_bank = 0xFF ∧ t.dap.powered = false := by
  refine ⟨_, _, rfl, ?_⟩
  have h := C3_create_disconnected_state init_resources 0
    (some demo_config_equal_pins) true _ _ rfl
  exact ⟨h.1, h.2.1, h.2.2.1, h.2.2.2.1⟩

/-! ## Claim C1 -/

/-- Claim C1 counterexample: a configuration with coinciding SWCLK/SWDIO pins
and a frequency of 1000000 kHz (far outside any permitted range) is NOT
rejected: swd_target_create returns a usable registered handle with
last_error OK, contradicting the claimed InvalidConfig rejection. -/
theorem C1_counterexample_no_config_validation :
    ∃ t r2, swd_target_create init_resources 0 (some demo_config_equal_pins)
        true = (.ok t, r2) ∧
      t.pio.pin_swclk = t.pio.pin_swdio ∧ t.pio.freq_khz = 1000000 ∧
      t.last_error = .OK ∧ t.resource_registered = true := by
  exact ⟨_, _, rfl, rfl, rfl, rfl, rfl⟩

/-- Claim C1 amended: swd_target_create performs no configuration validation
beyond a null check — whether creation succeeds never depends on the pin
numbers or the frequency (two configs agreeing on the pio/sm request fields
succeed or fail together), and a successful creation copies pins and
frequency into the handle verbatim. -/
theorem C1_amended_no_validation (r : resource_tracker) (id : Nat)
    (cfg cfg2 : swd_config) (ok : Bool)
    (hpio : cfg2.pio = cfg.pio) (hsm : cfg2.sm = cfg.sm) :
    ((swd_target_create r id (some cfg) ok).1 = .null ↔
      (swd_target_create r id (some cfg2) ok).1 = .null) ∧
    (∀ t r2, swd_target_create r id (some cfg) ok = (.ok t, r2) →
      t.pio.pin_swclk = cfg.pin_swclk ∧ t.pio.pin_swdio = cfg.pin_swdio ∧
      t.pio.freq_khz = cfg.freq_khz ∧ t.last_error = .OK) := by
  constructor
  · unfold swd_target_create
    cases ok with
    | false => simp
    | true =>
      simp only [reduceIte, hpio, hsm]
      split
      · simp
      · cases hslot : (if cfg.pio = SWD_PIO_AUTO ∨ cfg.sm = SWD_SM_AUTO
            then allocate_pio_sm r else Except.ok (cfg.pio, cfg.sm)) with
        | error e => simp [hslot]
        | ok pr =>
          obtain ⟨pio, sm⟩ := pr
          simp only [hslot]
          cases hreg : register_target r id pio sm <;> simp [hreg]
  · intro t r2 h
    rcases create_ok_inversion h with
      ⟨cfg3, pio, sm, hc, _, _, _, _, hswclk, hswdio, hfreq, _, _, _, _, herr, _⟩
    cases hc
    exact ⟨hswclk, hswdio, hfreq, herr⟩

/-- Witness for C1 amended, on the concrete equal-pin configuration and a
second configuration differing only in pins and frequency. -/
theorem C1_amended_no_validation_witness :
    ((swd_target_create init_resources 0 (some demo_config_equal_pins)
        true).1 = .null ↔
      (swd_target_create init_resources 0
        (some { demo_config_equal_pins with
                pin_swclk := 2, pin_swdio := 3, freq_khz := 1000 })
        true).1 = .null) ∧
    ∃ t r2, swd_target_create init_resources 0 (some demo_config_equal_pins)
        true = (.ok t, r2) ∧ t.pio.pin_swclk = 5 := by
  have h := C1_amended_no_validation init_resources 0 demo_config_equal_pins
    { demo_config_equal_pins with
      pin_swclk := 2, pin_swdio := 3, freq_khz := 1000 } true rfl rfl
  exact ⟨h.1, ⟨_, _, rfl, (h.2 _ _ rfl).1⟩⟩

/-! ## Claim C6 -/

/-- Claim C6 counterexample: destroying the same non-null handle twice is NOT
safe.  A first destroy of the handle at address 7 succeeds (freeing it), and
a second destroy of the same address dereferences freed memory — undefined
behaviour, modelled as a fault (none).  The C code only guards against NULL,
not against a dangling pointer. -/
theorem C6_counterexample_double_destroy_faults :
    swd_target_destroy demo_heap init_resources (.addr 7)
        = some ([], init_resources) ∧
    swd_target_destroy [] init_resources (.addr 7) = none := by
  exact ⟨rfl, rfl⟩

/-- Claim C6 amended: swd_target_destroy is a no-op on a null handle, and on
a live handle it first disconnects when connected (the tracker update acts on
the disconnected target), then unregisters the slot, then frees the handle;
safety on an already-destroyed (dangling, non-null) handle does not hold. -/
theorem C6_amended_destroy_safe (h : Heap) (r : resource_tracker) :
    swd_target_destroy h r .null = some (h, r) ∧
    ∀ a t, heap_lookup h a = some t →
      swd_target_destroy h r (.addr a) =
        some (heap_free h a,
          (unregister_target r
            (if t.connected then swd_disconnect t else t)).1) := by
  refine ⟨rfl, ?_⟩
  intro a t hl
  simp [swd_target_destroy, hl, destroy_live]

/-- Witness for C6 amended on the concrete one-element heap. -/
theorem C6_amended_destroy_safe_witness :
    swd_target_destroy demo_heap init_resources .null
        = some (demo_heap, init_resources) ∧
    swd_target_destroy demo_heap init_resources (.addr 7) =
      some (heap_free demo_heap 7,
        (unregister_target init_resources
          (if zeroTarget.connected then swd_disconnect zeroTarget
           else zeroTarget)).1) :=
  ⟨(C6_amended_destroy_safe demo_heap init_resources).1
  , (C6_amended_destroy_safe demo_heap init_resources).2 7 zeroTarget rfl⟩

/-! ## Claim C7 -/

theorem hartOf_setHart_self (t : swd_target) (h : Nat) (hs : hart_state)
    (hlt : h < t.rp2350.harts.length) : hartOf (setHart t h hs) h = hs := by
  simp only [hartOf, setHart]
  exact getD_set_self hs init_hart hlt

theorem setHart_setHart (t : swd_target) (h : Nat) (hs1 hs2 : hart_state) :
    setHart (setHart t h hs1) h hs2 = setHart t h hs2 := by
  simp [setHart, List.set_set]

/-- rp2350_halt on an already-halted hart. -/
theorem halt_already (t : swd_target) (h : Nat)
    (hc : t.connected = true) (hi : t.rp2350.initialized = true)
    (hh : h < RP2350_NUM_HARTS) (hhalted : (hartOf t h).halted = true) :
    rp2350_halt t h =
      (.ALREADY_HALTED,
        setHart t h { hartOf t h with halt_state_known := true }) := by
  unfold rp2350_halt
  rw [if_neg (by simp [hc]), if_neg (by simp [hi]),
    if_neg (Nat.not_le.mpr hh), if_pos hhalted]

/-- rp2350_halt on a running hart. -/
theorem halt_fresh (t : swd_target) (h : Nat)
    (hc : t.connected = true) (hi : t.rp2350.initialized = true)
    (hh : h < RP2350_NUM_HARTS) (hhalted : (hartOf t h).halted = false) :
    rp2350_halt t h =
      (.OK, setHart t h
        { hartOf t h with halted := true, halt_state_known := true }) := by
  unfold rp2350_halt
  rw [if_neg (by simp [hc]), if_neg (by simp [hi]),
    if_neg (Nat.not_le.mpr hh), if_neg (by simp [hhalted])]

/-- A second halt call on a hart just recorded halted returns ALREADY_HALTED
and leaves the state unchanged. -/
theorem halt_second (t : swd_target) (h : Nat) (hs1 : hart_state)
    (hc : t.connected = true) (hi : t.rp2350.initialized = true)
    (hh : h < RP2350_NUM_HARTS) (hlt : h < t.rp2350.harts.length)
    (hhs : hs1.halted = true) (hknown : hs1.halt_state_known = true) :
    rp2350_halt (setHart t h hs1) h = (.ALREADY_HALTED, setHart t h hs1) := by
  have hc1 : (setHart t h hs1).connected = true := hc
  have hi1 : (setHart t h hs1).rp2350.initialized = true := hi
  have hof : hartOf (setHart t h hs1) h = hs1 := hartOf_setHart_self t h hs1 hlt
  have hrec : ({ hs1 with halt_state_known := true } : hart_state) = hs1 := by
    cases hs1
    simp_all
  rw [halt_already (setHart t h hs1) h hc1 hi1 hh (by rw [hof]; exact hhs),
    hof, hrec, setHart_setHart]

/-- Claim C7: halt is idempotent — after any first halt (which returns OK or
the non-fatal ALREADY_HALTED), a second halt returns ALREADY_HALTED and
leaves the target state exactly as after the first call. -/
theorem C7_halt_idempotent (t : swd_target) (h : Nat)
    (hc : t.connected = true) (hi : t.rp2350.initialized = true)
    (hh : h < RP2350_NUM_HARTS)
    (hlen : t.rp2350.harts.length = RP2350_NUM_HARTS) :
    ((rp2350_halt t h).1 = .OK ∨ (rp2350_halt t h).1 = .ALREADY_HALTED) ∧
    rp2350_halt (rp2350_halt t h).2 h =
      (.ALREADY_HALTED, (rp2350_halt t h).2) := by
  have hlt : h < t.rp2350.harts.length := by rw [hlen]; exact hh
  by_cases hhalted : (hartOf t h).halted = true
  · rw [halt_already t h hc hi hh hhalted]
    exact ⟨Or.inr rfl, halt_second t h _ hc hi hh hlt hhalted rfl⟩
  · have hhalted2 : (hartOf t h).halted = false := by
      revert hhalted; cases (hartOf t h).halted <;> simp
    rw [halt_fresh t h hc hi hh hhalted2]
    exact ⟨Or.inl rfl, halt_second t h _ hc hi hh hlt rfl rfl⟩

/-- Witness for C7 on a concrete connected target, hart 0. -/
theorem C7_halt_idempotent_witness :
    ((rp2350_halt demo_connected_target 0).1 = .OK ∨
      (rp2350_halt demo_connected_target 0).1 = .ALREADY_HALTED) ∧
    rp2350_halt (rp2350_halt demo_connected_target 0).2 0 =
      (.ALREADY_HALTED, (rp2350_halt demo_connected_target 0).2) :=
  C7_halt_idempotent demo_connected_target 0 rfl rfl (by decide) (by decide)

/-! ## Claim C9 -/

/-- Claim C9: x0 is hard-wired zero at the driver interface — for every hart
and value, writing x0 succeeds without changing the register file and issues
no bus transaction, and a subsequent read of x0 returns 0, also with no bus
transaction. -/
theorem C9_x0_hardwired_zero (t : swd_target) (hw : List Nat) (h w : Nat)
    (hc : t.connected = true) (hh : h < RP2350_NUM_HARTS)
    (hhalted : (hartOf t h).halted = true) :
    rp2350_write_reg t hw h 0 w = (.OK, hw, []) ∧
    rp2350_read_reg t hw h 0 = ({ error := .OK, value := 0 }, []) := by
  constructor
  · unfold rp2350_write_reg
    rw [if_neg (by simp [hc]), if_neg (Nat.not_le.mpr hh),
      if_neg (by simp [hhalted]), if_neg (by omega), if_pos rfl]
  · unfold rp2350_read_reg
    rw [if_neg (by simp [hc]), if_neg (Nat.not_le.mpr hh),
      if_neg (by simp [hhalted]), if_neg (by omega), if_pos rfl]

/-- Witness for C9 on a concrete halted hart and the value 0xDEADBEEF. -/
theorem C9_x0_hardwired_zero_witness :
    rp2350_write_reg demo_halted_target (List.replicate 32 0) 0 0 0xDEADBEEF
        = (.OK, List.replicate 32 0, []) ∧
    rp2350_read_reg demo_halted_target (List.replicate 32 0) 0 0
        = ({ error := .OK, value := 0 }, []) :=
  C9_x0_hardwired_zero demo_halted_target (List.replicate 32 0) 0 0xDEADBEEF
    rfl (by decide) (by decide)

/-! ## Claim C10 -/

theorem findIdx_isNone_some_iff (l : List (Option Nat))
    (hlen : l.length = 4) (i : Nat) :
    l.findIdx? (fun o => o.isNone) = some i ↔
      i < 4 ∧ l.getD i none = none ∧
        ∀ j, j < i → l.getD j none ≠ none := by
  rw [List.findIdx?_eq_some_iff_getElem]
  constructor
  · rintro ⟨hl, hp, hprev⟩
    have hi4 : i < 4 := by rw [← hlen]; exact hl
    refine ⟨hi4, ?_, ?_⟩
    · rw [getD_eq_getElem l none i hl]
      simpa using hp
    · intro j hj hcontra
      have hjl : j < l.length := Nat.lt_trans hj hl
      rw [getD_eq_getElem l none j hjl] at hcontra
      have := hprev j hj
      rw [hcontra] at this
      simp at this
  · rintro ⟨hi4, hnone, hprev⟩
    have hl : i < l.length := by rw [hlen]; exact hi4
    rw [getD_eq_getElem l none i hl] at hnone
    refine ⟨hl, by simpa using hnone, ?_⟩
    intro j hj
    have hjl : j < l.length := Nat.lt_trans hj hl
    have := hprev j hj
    rw [getD_eq_getElem l none j hjl] at this
    simpa using this

theorem findIdx_isNone_none_iff (l : List (Option Nat))
    (hlen : l.length = 4) :
    l.findIdx? (fun o => o.isNone) = none ↔
      ∀ j, j < 4 → l.getD j none ≠ none := by
  rw [List.findIdx?_eq_none_iff]
  constructor
  · intro hall j hj hcontra
    have hjl : j < l.length := by rw [hlen]; exact hj
    rw [getD_eq_getElem l none j hjl] at hcontra
    have := hall _ (List.getElem_mem hjl)
    rw [hcontra] at this
    simp at this
  · intro hall x hx
    rcases List.mem_iff_getElem.mp hx with ⟨j, hjl, rfl⟩
    have hj4 : j < 4 := by rw [← hlen]; exact hjl
    have := hall j hj4
    rw [getD_eq_getElem l none j hjl] at this
    cases hval : l[j] with
    | none => exact absurd hval this
    | some v => simp [hval]

/-- Claim C10: allocate_pio_sm is deterministic first-fit — it returns the
lowest-index unowned PIO0 state machine, else the lowest-index unowned PIO1
state machine; it fails with RESOURCE_BUSY exactly when all 8 slots are
owned; and the slot it returns is still unowned in the (unmodified) tracker,
ownership being recorded only by the subsequent register_target. -/
theorem C10_allocate_first_fit (r : resource_tracker)
    (h0 : r.pio0_sm_owners.length = 4) (h1 : r.pio1_sm_owners.length = 4) :
    (∀ i, allocate_pio_sm r = .ok (0, i) ↔
        i < 4 ∧ r.pio0_sm_owners.getD i none = none ∧
          ∀ j, j < i → r.pio0_sm_owners.getD j none ≠ none) ∧
    (∀ i, allocate_pio_sm r = .ok (1, i) ↔
        (∀ j, j < 4 → r.pio0_sm_owners.getD j none ≠ none) ∧
          i < 4 ∧ r.pio1_sm_owners.getD i none = none ∧
          ∀ j, j < i → r.pio1_sm_owners.getD j none ≠ none) ∧
    (allocate_pio_sm r = .error .RESOURCE_BUSY ↔
        ∀ p s, p < 2 → s < 4 → slotOwner r p s ≠ none) ∧
    (∀ p s, allocate_pio_sm r = .ok (p, s) → slotOwner r p s = none) := by
  unfold allocate_pio_sm
  cases hf0 : r.pio0_sm_owners.findIdx? (fun o => o.isNone) with
  | some i0 =>
    have hprops := (findIdx_isNone_some_iff _ h0 i0).mp hf0
    refine ⟨?_, ?_, ?_, ?_⟩
    · intro i
      constructor
      · intro hok
        have : i0 = i := by
          have := congrArg (fun x => match x with
            | Except.ok (p, s) => s | Except.error _ => 99) hok
          simpa using this
        rw [← this]; exact hprops
      · intro hrhs
        have : r.pio0_sm_owners.findIdx? (fun o => o.isNone) = some i := by
          rw [findIdx_isNone_some_iff _ h0 i]; exact hrhs
        rw [hf0] at this
        injection this with this
        rw [this]
    · intro i
      constructor
      · intro hok
        have := congrArg (fun x => match x with
          | Except.ok (p, s) => p | Except.error _ => 99) hok
        simp at this
      · rintro ⟨hfull, _⟩
        exact absurd hprops.2.1 (hfull i0 hprops.1)
    · constructor
      · intro hok
        cases hok
      · intro hfull
        have h00 : slotOwner r 0 i0 = none := by
          simp only [slotOwner, if_pos rfl]
          exact hprops.2.1
        exact absurd h00 (hfull 0 i0 (by omega) hprops.1)
    · intro p s hok
      have hps : p = 0 ∧ s = i0 := by
        constructor
        · have := congrArg (fun x => match x with
            | Except.ok (q, u) => q | Except.error _ => 99) hok
          simpa using this.symm
        · have := congrArg (fun x => match x with
            | Except.ok (q, u) => u | Except.error _ => 99) hok
          simpa using this.symm
      rcases hps with ⟨rfl, rfl⟩
      simp only [slotOwner, if_pos rfl]
      exact hprops.2.1
  | none =>
    have hfull0 := (findIdx_isNone_none_iff _ h0).mp hf0
    cases hf1 : r.pio1_sm_owners.findIdx? (fun o => o.isNone) with
    | some i1 =>
      have hprops := (findIdx_isNone_some_iff _ h1 i1).mp hf1
      refine ⟨?_, ?_, ?_, ?_⟩
      · intro i
        constructor
        · intro hok
          have := congrArg (fun x => match x with
            | Except.ok (p, s) => p | Except.error _ => 99) hok
          simp at this
        · rintro ⟨_, hfree, _⟩
          exact absurd hfree (hfull0 i (by assumption))
      · intro i
        constructor
        · intro hok
          have : i1 = i := by
            have := congrArg (fun x => match x with
              | Except.ok (p, s) => s | Except.error _ => 99) hok
            simpa using this
          rw [← this]
          exact ⟨hfull0, hprops⟩
        · rintro ⟨_, hrhs⟩
          have : r.pio1_sm_owners.findIdx? (fun o => o.isNone) = some i := by
            rw [findIdx_isNone_some_iff _ h1 i]; exact hrhs
          rw [hf1] at this
          injection this with this
          rw [this]
      · constructor
        · intro hok
          cases hok
        · intro hfull
          have h11 : slotOwner r 1 i1 = none := by
            simpa [slotOwner] using hprops.2.1
          exact absurd h11 (hfull 1 i1 (by omega) hprops.1)
      · intro p s hok
        have hps : p = 1 ∧ s = i1 := by
          constructor
          · have := congrArg (fun x => match x with
              | Except.ok (q, u) => q | Except.error _ => 99) hok
            simpa using this.symm
          · have := congrArg (fun x => match x with
              | Except.ok (q, u) => u | Except.error _ => 99) hok
            simpa using this.symm
        rcases hps with ⟨rfl, rfl⟩
        simpa [slotOwner] using hprops.2.1
    | none =>
      have hfull1 := (findIdx_isNone_none_iff _ h1).mp hf1
      refine ⟨?_, ?_, ?_, ?_⟩
      · intro i
        constructor
        · intro hok; cases hok
        · rintro ⟨hi4, hfree, _⟩
          exact absurd hfree (hfull0 i hi4)
      · intro i
        constructor
        · intro hok; cases hok
        · rintro ⟨_, hi4, hfree, _⟩
          exact absurd hfree (hfull1 i hi4)
      · constructor
        · intro _ p s hp hs
          have hp2 : p = 0 ∨ p = 1 := by omega
          rcases hp2 with rfl | rfl
          · simpa [slotOwner] using hfull0 s hs
          · simpa [slotOwner] using hfull1 s hs
        · intro _; rfl
      · intro p s hok; cases hok

/-- Witness for C10: on the part-filled demo tracker the allocator hands out
PIO0 state machine 1, the lowest unowned slot. -/
theorem C10_allocate_first_fit_witness :
    1 < 4 ∧ demo_tracker.pio0_sm_owners.getD 1 none = none ∧
      ∀ j, j < 1 → demo_tracker.pio0_sm_owners.getD j none ≠ none :=
  ((C10_allocate_first_fit demo_tracker rfl rfl).1 1).mp rfl

/-! ## Claim C8 -/

theorem runState_step (m : debug_machine) :
    ∀ i, runState (machine_step m) i = runState m (i + 1) := by
  intro i
  induction i with
  | zero => rfl
  | succ i ih =>
    show machine_step (runState (machine_step m) i)
      = machine_step (runState m (i + 1))
    rw [ih]

theorem instrAt_step (m : debug_machine) (i : Nat) :
    instrAt (machine_step m) i = instrAt m (i + 1) := by
  unfold instrAt
  rw [runState_step]

theorem recordAt_step (capture : Bool) (m : debug_machine) (i : Nat) :
    recordAt capture (machine_step m) i = recordAt capture m (i + 1) := by
  unfold recordAt
  rw [instrAt_step, runState_step]

theorem sba_error_cases (m : debug_machine) (addr : Nat) (e : swd_error)
    (h : sba_read32 m addr = .error e) : e = .ALIGNMENT ∨ e = .BUS := by
  unfold sba_read32 at h
  split at h
  · left
    injection h with h
    exact h.symm
  · split at h
    · cases h
    · right
      injection h with h
      exact h.symm

/-- The record assembled by one trace iteration is recordAt of index 0. -/
theorem record_zero (capture : Bool) (m : debug_machine) (instr : Nat)
    (hsba : sba_read32 m m.pc = .ok instr) :
    loop_record capture m instr = recordAt capture m 0 := by
  unfold loop_record recordAt instrAt runState
  rw [hsba]

theorem trace_loop_all_ok (cb : trace_record → Bool) (capture : Bool) :
    ∀ (r : Nat) (m : debug_machine) (count : Nat),
      (∀ i, i < r →
        (instrAt m i).isOk = true ∧ cb (recordAt capture m i) = true) →
      trace_loop cb capture m r count = (Int.ofNat (count + r), r) := by
  intro r
  induction r with
  | zero =>
    intro m count _
    simp [trace_loop]
  | succ r ih =>
    intro m count hgood
    obtain ⟨hok, hcb⟩ := hgood 0 (Nat.succ_pos r)
    cases hsba : sba_read32 m m.pc with
    | error e =>
      rw [show instrAt m 0 = sba_read32 m m.pc from rfl, hsba] at hok
      exact Bool.noConfusion hok
    | ok instr =>
      have hcb2 : cb (loop_record capture m instr) = true := by
        rw [record_zero capture m instr hsba]
        exact hcb
      have hgood2 : ∀ i, i < r →
          (instrAt (machine_step m) i).isOk = true ∧
            cb (recordAt capture (machine_step m) i) = true := by
        intro i hi
        rw [instrAt_step, recordAt_step]
        exact hgood (i + 1) (by omega)
      rw [trace_loop]
      simp only [hsba, hcb2, if_true]
      rw [ih (machine_step m) (count + 1) hgood2]
      have harith : count + 1 + r = count + (r + 1) := by omega
      rw [harith]

theorem trace_loop_stop (cb : trace_record → Bool) (capture : Bool) :
    ∀ (j : Nat) (r : Nat) (m : debug_machine) (count : Nat), j < r →
      (∀ i, i < j →
        (instrAt m i).isOk = true ∧ cb (recordAt capture m i) = true) →
      (instrAt m j).isOk = true → cb (recordAt capture m j) = false →
      trace_loop cb capture m r count = (Int.ofNat (count + j + 1), j + 1) := by
  intro j
  induction j with
  | zero =>
    intro r m count hjr _ hok hfalse
    obtain ⟨rr, rfl⟩ : ∃ rr, r = rr + 1 := ⟨r - 1, by omega⟩
    cases hsba : sba_read32 m m.pc with
    | error e =>
      rw [show instrAt m 0 = sba_read32 m m.pc from rfl, hsba] at hok
      exact Bool.noConfusion hok
    | ok instr =>
      have hcb2 : cb (loop_record capture m instr) = false := by
        rw [record_zero capture m instr hsba]
        exact hfalse
      rw [trace_loop]
      simp only [hsba, hcb2]
      rfl
  | succ j ih =>
    intro r m count hjr hprev hok hfalse
    obtain ⟨rr, rfl⟩ : ∃ rr, r = rr + 1 := ⟨r - 1, by omega⟩
    obtain ⟨hok0, hcb0⟩ := hprev 0 (Nat.succ_pos j)
    cases hsba : sba_read32 m m.pc with
    | error e =>
      rw [show instrAt m 0 = sba_read32 m m.pc from rfl, hsba] at hok0
      exact Bool.noConfusion hok0
    | ok instr =>
      have hcb2 : cb (loop_record capture m instr) = true := by
        rw [record_zero capture m instr hsba]
        exact hcb0
      have hprev2 : ∀ i, i < j →
          (instrAt (machine_step m) i).isOk = true ∧
            cb (recordAt capture (machine_step m) i) = true := by
        intro i hi
        rw [instrAt_step, recordAt_step]
        exact hprev (i + 1) (by omega)
      have hok2 : (instrAt (machine_step m) j).isOk = true := by
        rw [instrAt_step]
        exact hok
      have hfalse2 : cb (recordAt capture (machine_step m) j) = false := by
        rw [recordAt_step]
        exact hfalse
      rw [trace_loop]
      simp only [hsba, hcb2, if_true]
      rw [ih rr (machine_step m) (count + 1) (by omega) hprev2 hok2 hfalse2]
      have harith : count + 1 + j + 1 = count + (j + 1) + 1 := by omega
      rw [harith]

theorem trace_loop_error (cb : trace_record → Bool) (capture : Bool) :
    ∀ (j : Nat) (r : Nat) (m : debug_machine) (count : Nat) (e : swd_error),
      j < r →
      (∀ i, i < j →
        (instrAt m i).isOk = true ∧ cb (recordAt capture m i) = true) →
      instrAt m j = .error e →
      trace_loop cb capture m r count = (error_code e, j) := by
  intro j
  induction j with
  | zero =>
    intro r m count e hjr _ herr
    obtain ⟨rr, rfl⟩ : ∃ rr, r = rr + 1 := ⟨r - 1, by omega⟩
    have hsba : sba_read32 m m.pc = .error e := herr
    rw [trace_loop]
    simp only [hsba]
  | succ j ih =>
    intro r m count e hjr hprev herr
    obtain ⟨rr, rfl⟩ : ∃ rr, r = rr + 1 := ⟨r - 1, by omega⟩
    obtain ⟨hok0, hcb0⟩ := hprev 0 (Nat.succ_pos j)
    cases hsba : sba_read32 m m.pc with
    | error e2 =>
      rw [show instrAt m 0 = sba_read32 m m.pc from rfl, hsba] at hok0
      exact Bool.noConfusion hok0
    | ok instr =>
      have hcb2 : cb (loop_record capture m instr) = true := by
        rw [record_zero capture m instr hsba]
        exact hcb0
      have hprev2 : ∀ i, i < j →
          (instrAt (machine_step m) i).isOk = true ∧
            cb (recordAt capture (machine_step m) i) = true := by
        intro i hi
        rw [instrAt_step, recordAt_step]
        exact hprev (i + 1) (by omega)
      have herr2 : instrAt (machine_step m) j = .error e := by
        rw [instrAt_step]
        exact herr
      rw [trace_loop]
      simp only [hsba, hcb2, if_true]
      rw [ih rr (machine_step m) (count + 1) e (by omega) hprev2 herr2]

theorem trace_loop_bound (cb : trace_record → Bool) (capture : Bool) :
    ∀ (r : Nat) (m : debug_machine) (count c : Nat),
      (trace_loop cb capture m r count).1 = Int.ofNat c → c ≤ count + r := by
  intro r
  induction r with
  | zero =>
    intro m count c h
    have h2 : Int.ofNat count = Int.ofNat c := h
    have h3 := Int.ofNat.inj h2
    omega
  | succ r ih =>
    intro m count c h
    rw [trace_loop] at h
    cases hsba : sba_read32 m m.pc with
    | error e =>
      simp only [hsba] at h
      rcases sba_error_cases m m.pc e hsba with rfl | rfl <;>
        simp [error_code, swd_error.code] at h
    | ok instr =>
      simp only [hsba] at h
      by_cases hcb : cb (loop_record capture m instr) = true
      · rw [if_pos hcb] at h
        have h2 : (trace_loop cb capture (machine_step m) r (count + 1)).1
            = Int.ofNat c := h
        have := ih (machine_step m) (count + 1) c h2
        omega
      · rw [if_neg hcb] at h
        have h2 : Int.ofNat (count + 1) = Int.ofNat c := h
        have h3 := Int.ofNat.inj h2
        omega

/-- Claim C8: the trace count contract — with a halted hart, an all-true
callback yields exactly N invocations and result N; a callback first false on
the k-th record (1-indexed) yields result k after k invocations; a
non-negative result never exceeds N; and a transport error at iteration j
aborts with the corresponding negative error code. -/
theorem C8_trace_count_contract (t : swd_target) (m : debug_machine)
    (h N : Nat) (cb : trace_record → Bool) (capture : Bool)
    (hc : t.connected = true) (hh : h < RP2350_NUM_HARTS)
    (hhalted : (hartOf t h).halted = true) :
    ((∀ i, i < N →
        (instrAt m i).isOk = true ∧ cb (recordAt capture m i) = true) →
      rp2350_trace t m h N cb capture = (Int.ofNat N, N)) ∧
    (∀ k, 1 ≤ k → k ≤ N →
        (∀ i, i < k - 1 →
          (instrAt m i).isOk = true ∧ cb (recordAt capture m i) = true) →
        (instrAt m (k - 1)).isOk = true →
        cb (recordAt capture m (k - 1)) = false →
        rp2350_trace t m h N cb capture = (Int.ofNat k, k)) ∧
    (∀ c : Nat, (rp2350_trace t m h N cb capture).1 = Int.ofNat c → c ≤ N) ∧
    (∀ j e, j < N →
        (∀ i, i < j →
          (instrAt m i).isOk = true ∧ cb (recordAt capture m i) = true) →
        instrAt m j = .error e →
        rp2350_trace t m h N cb capture = (error_code e, j) ∧
          error_code e < 0) := by
  have htr : rp2350_trace t m h N cb capture = trace_loop cb capture m N 0 := by
    unfold rp2350_trace
    rw [if_neg (by simp [hc]), if_neg (Nat.not_le.mpr hh),
      if_neg (by simp [hhalted])]
  refine ⟨?_, ?_, ?_, ?_⟩
  · intro hgood
    rw [htr, trace_loop_all_ok cb capture N m 0 hgood]
    simp
  · intro k h1k hkN hprev hok hfalse
    rw [htr, trace_loop_stop cb capture (k - 1) N m 0 (by omega) hprev hok
      hfalse]
    have harith : 0 + (k - 1) + 1 = k := by omega
    have harith2 : k - 1 + 1 = k := by omega
    rw [harith, harith2]
  · intro c hres
    rw [htr] at hres
    have := trace_loop_bound cb capture N m 0 c hres
    omega
  · intro j e hjN hprev herr
    refine ⟨?_, ?_⟩
    · rw [htr]
      exact trace_loop_error cb capture j N m 0 e hjN hprev herr
    · rcases sba_error_cases (runState m j) (runState m j).pc e herr
        with rfl | rfl <;> simp [error_code, swd_error.code]

/-- Witness for C8: tracing 2 instructions of the concrete machine with an
always-true callback delivers exactly 2 records. -/
theorem C8_trace_count_contract_witness :
    rp2350_trace demo_halted_target demo_machine 0 2 (fun _ => true) false
      = (Int.ofNat 2, 2) :=
  (C8_trace_count_contract demo_halted_target demo_machine 0 2 (fun _ => true)
      false rfl (by decide) (by decide)).1
    (by
      intro i hi
      interval_cases i <;> exact ⟨by decide, rfl⟩)

/-! ## Claim C2 -/

/-- Full characterisation of a successful register_target. -/
theorem register_target_spec {r : resource_tracker} {id pio sm : Nat}
    {r2 : resource_tracker}
    (h0 : r.pio0_sm_owners.length = 4) (h1 : r.pio1_sm_owners.length = 4)
    (h : register_target r id pio sm = some r2) :
    sm < 4 ∧ pio < 2 ∧ slotOwner r pio sm = none ∧
    r2.pio0_sm_owners.length = 4 ∧ r2.pio1_sm_owners.length = 4 ∧
    r2.active_count = r.active_count + 1 ∧
    ownedCount r2 = ownedCount r + 1 ∧
    (∀ p s, slotOwner r2 p s =
      if p = pio ∧ s = sm then some id else slotOwner r p s) := by
  by_cases hsm : 4 ≤ sm
  · unfold register_target at h
    rw [if_pos hsm] at h
    exact Option.noConfusion h
  · have hsm4 : sm < 4 := by omega
    have hsmlen0 : sm < r.pio0_sm_owners.length := by rw [h0]; omega
    have hsmlen1 : sm < r.pio1_sm_owners.length := by rw [h1]; omega
    by_cases hpio0 : pio = 0
    · subst hpio0
      unfold register_target at h
      rw [if_neg hsm, if_pos rfl] at h
      cases hslot : r.pio0_sm_owners.getD sm none with
      | some v =>
        rw [hslot] at h
        exact Option.noConfusion h
      | none =>
        rw [hslot] at h
        have h2 : ({ r with
            pio0_sm_owners := r.pio0_sm_owners.set sm (some id)
          , active_count := r.active_count + 1 } : resource_tracker) = r2 :=
          Option.some.inj h
        subst h2
        have hbal := countP_set_balance (fun o => o.isSome)
          r.pio0_sm_owners sm (some id) hsmlen0
        rw [hslot] at hbal
        simp at hbal
        refine ⟨hsm4, by omega, by simpa [slotOwner] using hslot, by simp [h0],
          h1, rfl, ?_, ?_⟩
        · unfold ownedCount
          simp only
          omega
        · intro p s
          by_cases hp : p = 0
          · subst hp
            simp only [slotOwner, if_pos rfl]
            by_cases hss : s = sm
            · subst hss
              rw [getD_set_self (some id) none hsmlen0]
              simp
            · rw [getD_set_ne (some id) none (fun hc => hss hc.symm)]
              simp [hss, slotOwner]
          · simp [slotOwner, hp]
    · by_cases hpio1 : pio = 1
      · subst hpio1
        unfold register_target at h
        rw [if_neg hsm, if_neg (by omega), if_pos rfl] at h
        cases hslot : r.pio1_sm_owners.getD sm none with
        | some v =>
          rw [hslot] at h
          exact Option.noConfusion h
        | none =>
          rw [hslot] at h
          have h2 : ({ r with
              pio1_sm_owners := r.pio1_sm_owners.set sm (some id)
            , active_count := r.active_count + 1 } : resource_tracker) = r2 :=
            Option.some.inj h
          subst h2
          have hbal := countP_set_balance (fun o => o.isSome)
            r.pio1_sm_owners sm (some id) hsmlen1
          rw [hslot] at hbal
          simp at hbal
          refine ⟨hsm4, by omega, by simpa [slotOwner] using hslot, h0,
            by simp [h1], rfl, ?_, ?_⟩
          · unfold ownedCount
            simp only
            omega
          · intro p s
            by_cases hp : p = 0
            · subst hp
              simp [slotOwner]
            · by_cases hp1 : p = 1
              · subst hp1
                simp only [slotOwner, if_neg (by omega : ¬(1:Nat) = 0),
                  if_pos rfl]
                by_cases hss : s = sm
                · subst hss
                  rw [getD_set_self (some id) none hsmlen1]
                  simp
                · rw [getD_set_ne (some id) none (fun hc => hss hc.symm)]
                  simp [hss]
              · simp [slotOwner, hp, hp1]
      · unfold register_target at h
        rw [if_neg hsm, if_neg hpio0, if_neg hpio1] at h
        exact Option.noConfusion h

/-- Full characterisation of release_pio_sm on an owned in-range slot when
the count invariant holds. -/
theorem release_pio_sm_spec {r : resource_tracker} {pio sm : Nat}
    (h0 : r.pio0_sm_owners.length = 4) (h1 : r.pio1_sm_owners.length = 4)
    (hsm : sm < 4) (hpio : pio < 2) {id : Nat}
    (hown : slotOwner r pio sm = some id)
    (hcnt : r.active_count = ownedCount r) :
    (release_pio_sm r pio sm).pio0_sm_owners.length = 4 ∧
    (release_pio_sm r pio sm).pio1_sm_owners.length = 4 ∧
    (release_pio_sm r pio sm).active_count
      = ownedCount (release_pio_sm r pio sm) ∧
    ownedCount (release_pio_sm r pio sm) + 1 = ownedCount r ∧
    (∀ p s, slotOwner (release_pio_sm r pio sm) p s =
      if p = pio ∧ s = sm then none else slotOwner r p s) := by
  have hsmlen0 : sm < r.pio0_sm_owners.length := by rw [h0]; omega
  have hsmlen1 : sm < r.pio1_sm_owners.length := by rw [h1]; omega
  unfold ownedCount at hcnt
  by_cases hpio0 : pio = 0
  · subst hpio0
    have hgd : r.pio0_sm_owners.getD sm none = some id := by
      have := hown
      simp only [slotOwner, if_pos rfl] at this
      exact this
    have hbal := countP_set_balance (fun o => o.isSome)
      r.pio0_sm_owners sm none hsmlen0
    rw [hgd] at hbal
    simp at hbal
    have hge1 : 1 ≤ r.pio0_sm_owners.countP (fun o => o.isSome) := by omega
    have hocnt : 1 ≤ ownedCount r := by unfold ownedCount; omega
    have hrw : release_pio_sm r 0 sm =
        release_decrement
          { r with pio0_sm_owners := r.pio0_sm_owners.set sm none } := by
      unfold release_pio_sm
      rw [if_neg (by omega), if_pos rfl]
    have hdec : release_decrement
        { r with pio0_sm_owners := r.pio0_sm_owners.set sm none } =
        { r with pio0_sm_owners := r.pio0_sm_owners.set sm none
               , active_count := r.active_count - 1 } := by
      unfold release_decrement
      rw [if_pos (by simp only; omega)]
    rw [hrw, hdec]
    refine ⟨by simp [h0], h1, ?_, ?_, ?_⟩
    · unfold ownedCount
      simp only
      omega
    · unfold ownedCount
      simp only
      omega
    · intro p s
      by_cases hp : p = 0
      · subst hp
        simp only [slotOwner, if_pos rfl]
        by_cases hss : s = sm
        · subst hss
          rw [getD_set_self none none hsmlen0]
          simp
        · rw [getD_set_ne none none (fun hc => hss hc.symm)]
          simp [hss]
      · simp [slotOwner, hp]
  · have hpio1 : pio = 1 := by omega
    subst hpio1
    have hgd : r.pio1_sm_owners.getD sm none = some id := by
      have := hown
      simp only [slotOwner, if_neg (by omega : ¬(1:Nat) = 0),
        if_pos rfl] at this
      exact this
    have hbal := countP_set_balance (fun o => o.isSome)
      r.pio1_sm_owners sm none hsmlen1
    rw [hgd] at hbal
    simp at hbal
    have hge1 : 1 ≤ r.pio1_sm_owners.countP (fun o => o.isSome) := by omega
    have hocnt : 1 ≤ ownedCount r := by unfold ownedCount; omega
    have hrw : release_pio_sm r 1 sm =
        release_decrement
          { r with pio1_sm_owners := r.pio1_sm_owners.set sm none } := by
      unfold release_pio_sm
      rw [if_neg (by omega), if_neg (by omega), if_pos rfl]
    have hdec : release_decrement
        { r with pio1_sm_owners := r.pio1_sm_owners.set sm none } =
        { r with pio1_sm_owners := r.pio1_sm_owners.set sm none
               , active_count := r.active_count - 1 } := by
      unfold release_decrement
      rw [if_pos (by simp only; omega)]
    rw [hrw, hdec]
    refine ⟨h0, by simp [h1], ?_, ?_, ?_⟩
    · unfold ownedCount
      simp only
      omega
    · unfold ownedCount
      simp only
      omega
    · intro p s
      by_cases hp : p = 0
      · subst hp
        simp [slotOwner]
      · by_cases hp1 : p = 1
        · subst hp1
          simp only [slotOwner, if_neg (by omega : ¬(1:Nat) = 0), if_pos rfl]
          by_cases hss : s = sm
          · subst hss
            rw [getD_set_self none none hsmlen1]
            simp
          · rw [getD_set_ne none none (fun hc => hss hc.symm)]
            simp [hss]
        · simp [slotOwner, hp, hp1]

/-- The zero state satisfies the invariant. -/
theorem inv_init : Inv initSys := by
  have hnone : ∀ s : Nat,
      ([none, none, none, none] : List (Option Nat)).getD s none = none := by
    intro s
    rcases s with _ | _ | _ | _ | s <;> rfl
  refine ⟨rfl, rfl, rfl, ?_, ?_, ?_⟩
  · intro p hp
    cases hp
  · intro p s id2 hcontra
    unfold initSys init_resources slotOwner at hcontra
    by_cases hp0 : p = 0
    · rw [if_pos hp0, hnone s] at hcontra
      exact Option.noConfusion hcontra
    · by_cases hp1 : p = 1
      · rw [if_neg hp0, if_pos hp1, hnone s] at hcontra
        exact Option.noConfusion hcontra
      · rw [if_neg hp0, if_neg hp1] at hcontra
        exact Option.noConfusion hcontra
  · simp [initSys]

/-- Creation preserves the invariant. -/
theorem inv_create (s : SysState) (hinv : Inv s)
    (config : Option swd_config) (ok : Bool) :
    Inv (applyCreate s config ok) := by
  obtain ⟨hl0, hl1, hcnt, hsess, hback, hnd⟩ := hinv
  rcases create_cases s.tracker s.next_id config ok with hnull |
    ⟨t, pio, sm, r2, hok, hreg, hrr, hp, hs⟩
  · unfold applyCreate
    rw [hnull]
    exact ⟨hl0, hl1, hcnt, hsess, hback, hnd⟩
  · unfold applyCreate
    rw [hok]
    obtain ⟨hsm4, hpio2, hfree, hr20, hr21, hac, how, hso⟩ :=
      register_target_spec hl0 hl1 hreg
    refine ⟨hr20, hr21, ?_, ?_, ?_, ?_⟩
    · rw [hac, hcnt, how]
    · intro p hmem
      rcases List.mem_cons.mp hmem with rfl | hmem2
      · refine ⟨hrr, ?_, ?_, ?_, ?_⟩
        · rw [hp]; exact hpio2
        · rw [hs]; exact hsm4
        · rw [hp, hs, hso]; simp
        · simp
      · obtain ⟨hreg2, hpio2b, hsm2b, hslot2, hid2⟩ := hsess p hmem2
        refine ⟨hreg2, hpio2b, hsm2b, ?_, by simp; omega⟩
        rw [hso]
        split
        · rename_i hcond
          rw [hcond.1, hcond.2, hfree] at hslot2
          exact Option.noConfusion hslot2
        · exact hslot2
    · intro p q id2 hso2
      rw [hso] at hso2
      by_cases hcond : p = pio ∧ q = sm
      · rw [if_pos hcond] at hso2
        have hid2 : s.next_id = id2 := Option.some.inj hso2
        subst hid2
        refine ⟨t, List.mem_cons_self _ _, ?_, ?_⟩
        · rw [hp, hcond.1]
        · rw [hs, hcond.2]
      · rw [if_neg hcond] at hso2
        obtain ⟨t2, hmem2, htp, hts⟩ := hback p q id2 hso2
        exact ⟨t2, List.mem_cons_of_mem _ hmem2, htp, hts⟩
    · simp only [List.map_cons]
      refine List.nodup_cons.mpr ⟨?_, hnd⟩
      intro hmem2
      rcases List.mem_map.mp hmem2 with ⟨p, hpmem, hpfst⟩
      have := (hsess p hpmem).2.2.2.2
      omega

/-- The tracker after destroying a live session: exactly its slot is freed. -/
theorem destroy_live_tracker (r : resource_tracker) (t : swd_target)
    (hreg : t.resource_registered = true) :
    destroy_live r t = release_pio_sm r t.pio.pio t.pio.sm := by
  have hdis_reg : (if t.connected then swd_disconnect t
      else t).resource_registered = true := by
    cases hcn : t.connected <;> simp [swd_disconnect, hreg]
  have hdis_pio : (if t.connected then swd_disconnect t
      else t).pio.pio = t.pio.pio := by
    cases hcn : t.connected <;> simp [swd_disconnect]
  have hdis_sm : (if t.connected then swd_disconnect t
      else t).pio.sm = t.pio.sm := by
    cases hcn : t.connected <;> simp [swd_disconnect]
  unfold destroy_live unregister_target
  rw [if_pos hdis_reg]
  simp only
  rw [hdis_pio, hdis_sm]

/-- Destruction preserves the invariant. -/
theorem inv_destroy (s : SysState) (hinv : Inv s) (id : Nat) :
    Inv (applyDestroy s id) := by
  obtain ⟨hl0, hl1, hcnt, hsess, hback, hnd⟩ := hinv
  unfold applyDestroy
  cases hfind : s.sessions.find? (fun p => p.1 == id) with
  | none => exact ⟨hl0, hl1, hcnt, hsess, hback, hnd⟩
  | some p0 =>
    have hp0mem : p0 ∈ s.sessions := List.mem_of_find?_eq_some hfind
    have hp0id : p0.1 = id := by
      have := List.find?_some hfind
      simpa using this
    obtain ⟨hreg0, hpio0, hsm0, hslot0, hid0⟩ := hsess p0 hp0mem
    show Inv
      { tracker := destroy_live s.tracker p0.2
      , sessions := s.sessions.filter (fun q => q.1 != id)
      , next_id := s.next_id }
    rw [destroy_live_tracker s.tracker p0.2 hreg0]
    obtain ⟨hr0, hr1, hacnt, hocnt, hso⟩ :=
      release_pio_sm_spec hl0 hl1 hsm0 hpio0 hslot0 hcnt
    refine ⟨hr0, hr1, hacnt, ?_, ?_, ?_⟩
    · intro p hmem
      rw [List.mem_filter] at hmem
      obtain ⟨hmem2, hpne⟩ := hmem
      have hpneq : p.1 ≠ id := by simpa using hpne
      obtain ⟨hregp, hpiop, hsmp, hslotp, hidp⟩ := hsess p hmem2
      refine ⟨hregp, hpiop, hsmp, ?_, hidp⟩
      rw [hso]
      split
      · rename_i hcond
        rw [hcond.1, hcond.2, hslot0] at hslotp
        have : p0.1 = p.1 := Option.some.inj hslotp
        exact absurd (by rw [← this, hp0id]) hpneq
      · exact hslotp
    · intro p q id2 hso2
      rw [hso] at hso2
      by_cases hcond : p = p0.2.pio.pio ∧ q = p0.2.pio.sm
      · rw [if_pos hcond] at hso2
        exact Option.noConfusion hso2
      · rw [if_neg hcond] at hso2
        obtain ⟨t2, hmem2, htp, hts⟩ := hback p q id2 hso2
        refine ⟨t2, ?_, htp, hts⟩
        rw [List.mem_filter]
        refine ⟨hmem2, ?_⟩
        simp only [bne_iff_ne, ne_eq]
        intro hcontra
        subst hcontra
        have hp0pair : (p0.1, p0.2) ∈ s.sessions := by simpa using hp0mem
        rw [hp0id] at hp0pair
        have ht2p0 : t2 = p0.2 := key_unique hnd hmem2 hp0pair
        exact hcond ⟨by rw [← htp, ht2p0], by rw [← hts, ht2p0]⟩
    · exact List.Nodup.sublist
        (List.Sublist.map Prod.fst (List.filter_sublist _)) hnd

/-- Every reachable process state satisfies the invariant. -/
theorem reach_inv (s : SysState) (h : SysReachable s) : Inv s := by
  induction h with
  | init => exact inv_init
  | step hr hstep ih =>
    cases hstep with
    | create config ok => exact inv_create _ ih config ok
    | destroy id => exact inv_destroy _ ih id

/-- Claim C2: after any sequence of swd_target_create / swd_target_destroy
calls from the zero-initialised state — (1) active_count equals the number
of owned slots; (2) every owned slot belongs to exactly one live session;
(3) a live session is registered iff some slot maps to it; (4) destroying a
session always removes its slot ownership. -/
theorem C2_tracker_invariants (s : SysState) (hreach : SysReachable s) :
    s.tracker.active_count = ownedCount s.tracker ∧
    (∀ pio sm id, slotOwner s.tracker pio sm = some id →
      ∃ t, (id, t) ∈ s.sessions ∧ ∀ t2, (id, t2) ∈ s.sessions → t2 = t) ∧
    (∀ id t, (id, t) ∈ s.sessions →
      (t.resource_registered = true ↔
        ∃ pio sm, slotOwner s.tracker pio sm = some id)) ∧
    (∀ id t, (id, t) ∈ s.sessions → ∀ pio sm,
      slotOwner (applyDestroy s id).tracker pio sm ≠ some id) := by
  obtain ⟨hl0, hl1, hcnt, hsess, hback, hnd⟩ := reach_inv s hreach
  refine ⟨hcnt, ?_, ?_, ?_⟩
  · intro pio sm id hso
    obtain ⟨t, hmem, htp, hts⟩ := hback pio sm id hso
    exact ⟨t, hmem, fun t2 hmem2 => key_unique hnd hmem2 hmem⟩
  · intro id t hmem
    constructor
    · intro _
      exact ⟨t.pio.pio, t.pio.sm, (hsess (id, t) hmem).2.2.2.1⟩
    · intro _
      exact (hsess (id, t) hmem).1
  · intro id t hmem pio sm hcontra
    unfold applyDestroy at hcontra
    cases hfind : s.sessions.find? (fun p => p.1 == id) with
    | none =>
      have := List.find?_eq_none.mp hfind (id, t) hmem
      simp at this
    | some p0 =>
      rw [hfind] at hcontra
      have hp0mem : p0 ∈ s.sessions := List.mem_of_find?_eq_some hfind
      have hp0id : p0.1 = id := by simpa using List.find?_some hfind
      obtain ⟨hreg0, hpio0, hsm0, hslot0, hid0⟩ := hsess p0 hp0mem
      have hcontra2 : slotOwner (destroy_live s.tracker p0.2) pio sm
          = some id := hcontra
      rw [destroy_live_tracker s.tracker p0.2 hreg0] at hcontra2
      obtain ⟨_, _, _, _, hso⟩ :=
        release_pio_sm_spec hl0 hl1 hsm0 hpio0 hslot0 hcnt
      rw [hso] at hcontra2
      by_cases hcond : pio = p0.2.pio.pio ∧ sm = p0.2.pio.sm
      · rw [if_pos hcond] at hcontra2
        exact Option.noConfusion hcontra2
      · rw [if_neg hcond] at hcontra2
        obtain ⟨t2, hmem2, htp, hts⟩ := hback pio sm id hcontra2
        have hp0pair : (id, p0.2) ∈ s.sessions := by
          have hpair : (p0.1, p0.2) ∈ s.sessions := by simpa using hp0mem
          rwa [hp0id] at hpair
        have ht2 : t2 = p0.2 := key_unique hnd hmem2 hp0pair
        exact hcond ⟨by rw [← htp, ht2], by rw [← hts, ht2]⟩

/-- Witness for C2: the invariant applied to the concrete state reached by
one successful creation from the zero state. -/
theorem C2_tracker_invariants_witness :
    (applyCreate initSys (some demo_config_equal_pins) true).tracker.active_count
      = ownedCount
          (applyCreate initSys (some demo_config_equal_pins) true).tracker :=
  (C2_tracker_invariants
    (applyCreate initSys (some demo_config_equal_pins) true)
    (SysReachable.step SysReachable.init
      (SysStep.create (some demo_config_equal_pins) true))).1

end SWDModel
